import Mathlib

/-!
Verification of the qt-csv-viewer repository's tabular data model against its
natural-language specification.

The repository contains two parallel table implementations:

* `CSVTableModel` (src/views/table_model.py) — a Qt model backed by a pandas
  DataFrame.  Cell values are modelled here as `Option String`: `none` stands
  for the NULL sentinel (Python `None` / pandas `NaN`), `some s` for a text
  value.  Values of other scalar types only ever reach the display through
  Python's `str`, which is orthogonal to every claim below, so the string
  fragment is the faithful one.  The DataFrame's row index is modelled as the
  positional `RangeIndex` that every mutator in the source re-establishes via
  `reset_index(drop=True)`.

* the materialized `TableWidget` path (src/views/main_window.py) — rows of
  `QTableWidgetItem`s; a cell is its displayed text (the NULL display text is
  the literal string "NULL"), plus per-item highlight and per-row hidden flags.

Python string primitives (`str.strip`, `str.upper`, `str.lower`, substring
`in`) are embedded for the ASCII fragment the application exercises.
-/

/-- Python whitespace characters recognised by `str.strip` (ASCII fragment):
space, tab, newline, carriage return, vertical tab, form feed. -/
def isPySpace (c : Char) : Bool :=
  c = ' ' || c = '\t' || c = '\n' || c = '\r' || c = Char.ofNat 11 || c = Char.ofNat 12

/-- Python `str.strip()`: drop leading and trailing whitespace. -/
def pyStrip (s : String) : String :=
  String.mk (((s.toList.dropWhile isPySpace).reverse.dropWhile isPySpace).reverse)

/-- Python `str.upper()` (ASCII fragment). -/
def pyUpper (s : String) : String :=
  String.mk (s.toList.map Char.toUpper)

/-- Python `str.lower()` (ASCII fragment). -/
def pyLower (s : String) : String :=
  String.mk (s.toList.map Char.toLower)

/-- Python `needle in hay` on strings: contiguous substring test (on char
lists; the empty needle is contained in everything, as in Python). -/
def containsSub (hay needle : List Char) : Bool :=
  match hay with
  | [] => needle.isEmpty
  | c :: t => needle.isPrefixOf (c :: t) || containsSub t needle

/-- The pandas DataFrame held in `CSVTableModel._data`: ordered column names
and ordered rows of cells, a cell being text or the NULL sentinel. -/
structure DataFrame where
  columns : List String
  rows : List (List (Option String))
deriving Repr, DecidableEq

/-- `CSVTableModel` (table_model.py): the DataFrame plus the set of
`(row, column)` pairs recorded in `_modified_cells`. -/
structure CSVTableModel where
  _data : DataFrame
  _modified_cells : Finset (Nat × Nat)
deriving DecidableEq

/-- `CSVTableModel.rowCount`: `len(self._data)`. -/
def CSVTableModel.rowCount (m : CSVTableModel) : Nat := m._data.rows.length

/-- `CSVTableModel.columnCount`: `len(self._data.columns)`. -/
def CSVTableModel.columnCount (m : CSVTableModel) : Nat := m._data.columns.length

/-- The DisplayRole branch of `CSVTableModel.data`: a NULL sentinel or an
empty string displays as "NULL", any other value as its text
(`pd.isna(value) or value == "" or value is None`). -/
def displayCell : Option String → String
  | none => "NULL"
  | some s => if s = "" then "NULL" else s

/-- `CSVTableModel.data` at DisplayRole: `self._data.iloc[row, column]`
rendered through `displayCell`.  `none` when the position does not exist
(the view only queries valid indices). -/
def CSVTableModel.data (m : CSVTableModel) (r c : Nat) : Option String :=
  (m._data.rows[r]?.bind fun row => row[c]?).map displayCell

/-- The edit-time null test inside `CSVTableModel.setData`:
`value.strip().upper() == "NULL" or not value.strip()`. -/
def isNullEditText (value : String) : Bool :=
  (pyUpper (pyStrip value) == "NULL") || (pyStrip value == "")

/-- The text-to-cell normalization inside `CSVTableModel.setData`: null-like
text stores `None`, anything else stores the raw text. -/
def normalizeEdit (value : String) : Option String :=
  if isNullEditText value then none else some value

/-- `CSVTableModel.setData` (EditRole): normalize the text, assign it through
`iloc`, record the cell in `_modified_cells` and return True; an
out-of-bounds `iloc` assignment raises, is caught, and False is returned with
nothing changed.  A role other than EditRole returns False immediately. -/
def CSVTableModel.setData (m : CSVTableModel) (r c : Nat) (value : String)
    (isEditRole : Bool) : CSVTableModel × Bool :=
  if isEditRole then
    if r < m._data.rows.length ∧ c < m._data.columns.length then
      let row := m._data.rows.getD r []
      (⟨⟨m._data.columns, m._data.rows.set r (row.set c (normalizeEdit value))⟩,
        insert (r, c) m._modified_cells⟩, true)
    else (m, false)
  else (m, false)

/-- `CSVTableModel.remove_row`: if `0 <= row < len(self._data)`, drop the
row at that position, reset the index and return True; otherwise return
False.  `_modified_cells` is not touched. -/
def CSVTableModel.remove_row (m : CSVTableModel) (row : Int) : CSVTableModel × Bool :=
  if 0 ≤ row ∧ row < (m._data.rows.length : Int) then
    (⟨⟨m._data.columns, m._data.rows.eraseIdx row.toNat⟩, m._modified_cells⟩, true)
  else (m, false)

/-- The per-row effect of `self._data.drop(name, axis=1)`: remove the cells
sitting under every column called `name`. -/
def dropRowCellsByName (cols : List String) (name : String)
    (row : List (Option String)) : List (Option String) :=
  ((row.zip cols).filter (fun p => decide (p.2 ≠ name))).map Prod.fst

/-- `CSVTableModel.remove_column`: if `0 <= column_index < len(columns)`,
drop the column label at that position — pandas `drop(label, axis=1)`
removes every column bearing that label — and return True; otherwise return
False.  `_modified_cells` is not touched. -/
def CSVTableModel.remove_column (m : CSVTableModel) (ci : Int) : CSVTableModel × Bool :=
  if 0 ≤ ci ∧ ci < (m._data.columns.length : Int) then
    let name := m._data.columns.getD ci.toNat ""
    (⟨⟨m._data.columns.filter (fun n => decide (n ≠ name)),
       m._data.rows.map (dropRowCellsByName m._data.columns name)⟩,
      m._modified_cells⟩, true)
  else (m, false)

/-- Python list slice `l[:j]` (the `iloc[: i]` fragment used by `add_row`):
negative bounds count from the end, clamped at zero. -/
def pySliceTake {α : Type} (l : List α) (j : Int) : List α :=
  if j < 0 then l.take ((l.length : Int) + j).toNat else l.take j.toNat

/-- Python list slice `l[j:]`. -/
def pySliceDrop {α : Type} (l : List α) (j : Int) : List α :=
  if j < 0 then l.drop ((l.length : Int) + j).toNat else l.drop j.toNat

/-- `CSVTableModel.add_row`: concatenate `iloc[: i + 1]`, a fresh all-`None`
row, and `iloc[i + 1 :]`, and reset the index.  Always succeeds;
`_modified_cells` is not touched. -/
def CSVTableModel.add_row (m : CSVTableModel) (after_row_index : Int) :
    CSVTableModel × Bool :=
  let new_row : List (Option String) := List.replicate m._data.columns.length none
  (⟨⟨m._data.columns,
     pySliceTake m._data.rows (after_row_index + 1) ++
       new_row :: pySliceDrop m._data.rows (after_row_index + 1)⟩,
    m._modified_cells⟩, true)

/-- The four store mutations reachable from a UI action on the model path. -/
inductive EditOp where
  | setCell (r c : Nat) (v : String)
  | insertRowAfter (i : Int)
  | deleteRow (i : Int)
  | deleteColumn (i : Int)

/-- Dispatch an operation to the corresponding `CSVTableModel` method
(cell edits arrive with EditRole). -/
def applyOp (m : CSVTableModel) : EditOp → CSVTableModel × Bool
  | .setCell r c v => m.setData r c v true
  | .insertRowAfter i => m.add_row i
  | .deleteRow i => m.remove_row i
  | .deleteColumn i => m.remove_column i

/-- Well-formedness of the DataFrame: every row has one cell per column. -/
@[reducible] def wfModel (m : CSVTableModel) : Prop :=
  ∀ row ∈ m._data.rows, row.length = m._data.columns.length

/-!  The materialized `TableWidget` path of main_window.py.  -/

/-- One widget cell: its displayed text and whether `search_data` gave it the
semi-transparent yellow highlight background. -/
structure SCell where
  text : String
  highlighted : Bool
deriving Repr, DecidableEq

/-- One widget row: its cells and its `setRowHidden` flag. -/
structure SRow where
  cells : List SCell
  hidden : Bool
deriving Repr, DecidableEq

/-- The widget state `update_table_data` leaves behind for given row texts:
every cell unhighlighted (NULL cells carry the text "NULL"), every row
visible. -/
def loadState (rows : List (List String)) : List SRow :=
  rows.map (fun texts => ⟨texts.map (fun t => ⟨t, false⟩), false⟩)

/-- The query `search_data` derives from the search-bar text:
`text.strip().lower()`. -/
def queryOf (input : String) : String := pyLower (pyStrip input)

/-- Whether a row matches the query: some cell's lowercased text contains the
query as a substring (`search_text in cell_text`). -/
def rowHasMatch (q : String) (r : SRow) : Bool :=
  r.cells.any (fun c => containsSub (pyLower c.text).toList q.toList)

/-- First pass of `search_data`: show the row again and reset every cell's
background to transparent. -/
def resetRow (r : SRow) : SRow :=
  ⟨r.cells.map (fun c => ⟨c.text, false⟩), false⟩

/-- Second pass of `search_data` on one (already reset) row: replace each
matching cell by a highlighted item with the same text, then hide the row if
no cell matched. -/
def searchRow (q : String) (r : SRow) : SRow :=
  let matched := r.cells.any (fun c => containsSub (pyLower c.text).toList q.toList)
  ⟨r.cells.map (fun c =>
      if containsSub (pyLower c.text).toList q.toList then ⟨c.text, true⟩ else c),
   !matched⟩

/-- `MainWindow.search_data`: strip and lowercase the input, unhide all rows
and clear all backgrounds, and — when the query is non-empty — highlight the
matching cells and hide the rows with no match. -/
def search_data (st : List SRow) (input : String) : List SRow :=
  let q := queryOf input
  let st1 := st.map resetRow
  if q = "" then st1 else st1.map (searchRow q)

/-- The displayed texts of every row, in order. -/
def rowTexts (st : List SRow) : List (List String) :=
  st.map (fun r => r.cells.map SCell.text)

/-- The displayed texts of the rows currently visible, in order. -/
def visibleTexts (st : List SRow) : List (List String) :=
  rowTexts (st.filter (fun r => !r.hidden))

/-- `MainWindow.delete_selected_rows`: the distinct selected indices are
removed in descending order via `QTableWidget.removeRow` (which is a no-op
out of bounds, like `List.eraseIdx`). -/
def delete_selected_rows (rows : List (List String)) (selected : List Nat) :
    List (List String) :=
  (List.insertionSort (· ≥ ·) selected.dedup).foldl (fun acc i => acc.eraseIdx i) rows

/-!  The save/load pipeline of the materialized path
(`get_table_data` + `df.to_csv(index=False)` on save,
`pd.read_csv` + `update_table_data` on open).

Serialization is modelled at the field level: a file is the header field
list followed by one field list per row; the on-disk text is the
comma/newline join of these fields, which is injective on the
quote-free, delimiter-free fragment that every theorem below restricts
itself to.  A data line all of whose fields are empty is the empty line
when there is a single column, which `pd.read_csv` (skip_blank_lines)
drops; at the field level that line is `[""]`.

`pd.read_csv` is modelled on the fragment these claims exercise: its
default NA-token list, and its integer / boolean column inference
(columns it would parse as floats are excluded by every hypothesis below
and modelled as text columns).  `update_table_data` then renders NA as
the "NULL" item and any other value through `str`.  -/

/-- The cell rule of `MainWindow.get_table_data`: an absent item or one whose
text is exactly "NULL" becomes `None`, any other item keeps its text. -/
def get_table_data_cell : Option String → Option String
  | none => none
  | some t => if t = "NULL" then none else some t

/-- `df.to_csv` field for one cell: `None` is written as the empty field,
text verbatim (quote handling is outside the modelled fragment). -/
def to_csv_field : Option String → String
  | none => ""
  | some t => t

/-- Saving one widget cell's displayed text: `get_table_data` then `to_csv`. -/
def saveCellText (t : String) : String :=
  to_csv_field (get_table_data_cell (some t))

/-- Saving one widget row: `get_table_data` then `to_csv`. -/
def saveRowFields (row : List String) : List String :=
  row.map saveCellText

/-- `MainWindow.save_file` on a widget state: header fields, then one field
list per row. -/
def saveTable (headers : List String) (rows : List (List String)) :
    List (List String) :=
  headers :: rows.map saveRowFields

/-- pandas' default NA tokens (`pd.read_csv` turns these fields into NaN). -/
def naTokens : List String :=
  ["", "#N/A", "#N/A N/A", "#NA", "-1.#IND", "-1.#QNAN", "-NaN", "-nan",
   "1.#IND", "1.#QNAN", "<NA>", "N/A", "NA", "NULL", "NaN", "None",
   "n/a", "nan", "null"]

/-- A field `pd.read_csv` parses as an integer: an optional sign followed by
one or more digits. -/
def isIntToken (s : String) : Bool :=
  let l := (pyStrip s).toList
  let digits := if l.head? = some '-' || l.head? = some '+' then l.tail else l
  !digits.isEmpty && digits.all Char.isDigit

/-- A field `pd.read_csv` parses as a float.  The parser's integer and float
conversions skip surrounding ASCII whitespace, and its fallback recognises
the special words "inf", "infinity" and "nan" case-insensitively (the
strcasecmp fallback), each with an optional sign; otherwise: digits with an
optional point and an optional exponent.  A syntactic over-approximation,
only ever used as an exclusion in hypotheses. -/
def isFloatToken (s : String) : Bool :=
  let l := (pyStrip s).toList
  let l := if l.head? = some '-' || l.head? = some '+' then l.tail else l
  let lower := l.map Char.toLower
  let special := lower = "inf".toList || lower = "infinity".toList ||
    lower = "nan".toList
  let mantissa := l.takeWhile (fun c => c.isDigit || c = '.')
  let rest := l.drop mantissa.length
  let expOk :=
    match rest with
    | [] => true
    | e :: r =>
      (e = 'e' || e = 'E') &&
        (let r := if r.head? = some '-' || r.head? = some '+' then r.tail else r
         !r.isEmpty && r.all Char.isDigit)
  special ||
    (!mantissa.isEmpty && (mantissa.filter (fun c => c = '.')).length ≤ 1 &&
      mantissa.any Char.isDigit && expOk)

/-- A field `pd.read_csv` parses as a boolean: the parser's boolean
conversion compares the whole field against "true"/"false" with strcasecmp,
so the match is case-insensitive (and, unlike the numeric conversions, not
whitespace-tolerant). -/
def isBoolToken (s : String) : Bool :=
  let lower := s.toList.map Char.toLower
  lower = "true".toList || lower = "false".toList

/-- The dtype `pd.read_csv` infers for one column of raw fields, on the
modelled fragment. -/
inductive ColKind where
  | intCol
  | boolCol
  | strCol
deriving Repr, DecidableEq

/-- Column dtype inference: all non-NA fields integral → integer column; all
boolean tokens → boolean column; otherwise the fields stay text.  Columns
the real reader would parse as float64 (any field accepted by
`isFloatToken`, including whitespace-padded numerics and the
case-insensitive inf/nan words) carry no kind of their own here: every
theorem's hypotheses exclude such fields, so on the proven fragment the
text fallback agrees with the program. -/
def inferKind (fields : List String) : ColKind :=
  let nonNA := fields.filter (fun f => decide (f ∉ naTokens))
  if !nonNA.isEmpty && nonNA.all isIntToken then .intCol
  else if !nonNA.isEmpty && nonNA.all isBoolToken then .boolCol
  else .strCol

/-- The parser's integer conversion on an integer token (surrounding
whitespace skipped). -/
def parseIntToken (s : String) : Int :=
  match (pyStrip s).toList with
  | '-' :: ds => - (String.mk ds).toNat!
  | '+' :: ds => (String.mk ds).toNat!
  | _ => (pyStrip s).toNat!

/-- The text `update_table_data` puts in the widget for one parsed field: NA
fields become the "NULL" item, other fields are rendered through `str` of
the value their column's dtype gave them. -/
def renderField (k : ColKind) (f : String) : String :=
  if f ∈ naTokens then "NULL"
  else
    match k with
    | .intCol => toString (parseIntToken f)
    | .boolCol =>
      if (f.toList.map Char.toLower) = "true".toList then "True" else "False"
    | .strCol => f

/-- `pd.read_csv` + `update_table_data` on a field-level file: the first
line names the columns; blank data lines are skipped; each column's fields
are rendered under its inferred dtype. -/
def loadTable (csv : List (List String)) : List String × List (List String) :=
  match csv with
  | [] => ([], [])
  | headers :: dataRows =>
    let rows := dataRows.filter (fun r => decide (r ≠ [""]))
    let kindOf : Nat → ColKind := fun j => inferKind (rows.map (fun r => r.getD j ""))
    (headers,
     rows.map (fun r => (List.range headers.length).map (fun j => renderField (kindOf j) (r.getD j ""))))

/-- Save the widget table to delimited text and load it back. -/
def roundTripTable (headers : List String) (rows : List (List String)) :
    List String × List (List String) :=
  loadTable (saveTable headers rows)

/-- A field the modelled reader hands back verbatim as text: not an NA token,
not integer-, float- or boolean-like, and free of the delimiter, quote and
line-break characters. -/
def plainField (s : String) : Bool :=
  decide (s ∉ naTokens) && !isIntToken s && !isFloatToken s && !isBoolToken s &&
    s.toList.all (fun c => c ≠ ',' && c ≠ '"' && c ≠ '\n' && c ≠ '\r')

/-- Modelled from the spec: `deleteColumn(index)` — "removes column and
corresponding cell from every row; remaps `modified` column indices; fails
with `IndexError` if out of bounds."  Entries referencing the deleted column
are dropped, higher column indices shift down by one.  Used only to compare
the spec's out-of-bounds failure mode with the code's. -/
def deleteColumnSpec (m : CSVTableModel) (i : Int) : Except String CSVTableModel :=
  if 0 ≤ i ∧ i < (m.columnCount : Int) then
    Except.ok ⟨⟨m._data.columns.eraseIdx i.toNat,
      m._data.rows.map (fun row => row.eraseIdx i.toNat)⟩,
      (m._modified_cells.filter (fun p => p.2 ≠ i.toNat)).image
        (fun p => if i.toNat < p.2 then (p.1, p.2 - 1) else p)⟩
  else Except.error "IndexError"

/-- The spec's scenario store: columns `["id","name"]`, rows
`[["1","Alice"],["2",NULL]]`, nothing modified. -/
def demoModel : CSVTableModel :=
  ⟨⟨["id", "name"], [[some "1", some "Alice"], [some "2", none]]⟩, ∅⟩

/-- The store of the C1 counterexample: a 1×1 table whose only cell is
edited (entering `(0,0)` into `_modified_cells`) and whose only row is then
deleted. -/
def c1State : CSVTableModel :=
  ((((CSVTableModel.mk ⟨["a"], [[some "x"]]⟩ ∅).setData 0 0 "y" true).1).remove_row 0).1

/-!  Theorems.  -/

/-- Claim C1 (amended): `remove_row` and `remove_column` leave
`_modified_cells` completely unchanged — entries referencing deleted
positions are neither dropped nor remapped, so modified indices can end up
outside the current row/column bounds. -/
theorem claim_C1 (m : CSVTableModel) (i : Int) :
    ((m.remove_row i).1)._modified_cells = m._modified_cells ∧
    ((m.remove_column i).1)._modified_cells = m._modified_cells := by
  constructor
  · unfold CSVTableModel.remove_row
    split <;> rfl
  · unfold CSVTableModel.remove_column
    split <;> rfl

/-- Claim C1 counterexample: after deleting the row, the modified entry
`(0,0)` is still present although the store has zero rows, so a `modified`
entry refers to a deleted (out-of-bounds) row, contradicting the claim that
such entries are dropped or remapped. -/
theorem claim_C1_cex : (0, 0) ∈ c1State._modified_cells ∧ c1State.rowCount = 0 := by
  decide

/-- Claim C2: for an in-bounds cell of a well-formed store, writing text via
`setData` (EditRole) and reading the cell back through `data` (DisplayRole)
yields "NULL" exactly when the text strips to the case-insensitive word
"NULL" or to nothing, and yields the text itself verbatim otherwise. -/
theorem claim_C2 (m : CSVTableModel) (r c : Nat) (t : String)
    (hwf : wfModel m) (hr : r < m.rowCount) (hc : c < m.columnCount) :
    (m.setData r c t true).2 = true ∧
    (m.setData r c t true).1.data r c =
      some (if isNullEditText t then "NULL" else t) := by
  have hr' : r < m._data.rows.length := hr
  have hc' : c < m._data.columns.length := hc
  have hrc : r < m._data.rows.length ∧ c < m._data.columns.length := ⟨hr', hc'⟩
  have hset : m.setData r c t true =
      (⟨⟨m._data.columns,
          m._data.rows.set r ((m._data.rows.getD r []).set c (normalizeEdit t))⟩,
        insert (r, c) m._modified_cells⟩, true) := by
    unfold CSVTableModel.setData
    rw [if_pos hrc]
    rfl
  rw [hset]
  refine ⟨rfl, ?_⟩
  unfold CSVTableModel.data
  have hrow : m._data.rows.getD r [] = m._data.rows.get ⟨r, hr'⟩ :=
    List.getD_eq_getElem _ _ hr'
  have hrlen : (m._data.rows.get ⟨r, hr'⟩).length = m._data.columns.length :=
    hwf _ (List.getElem_mem hr')
  have h1 : (m._data.rows.set r ((m._data.rows.getD r []).set c (normalizeEdit t)))[r]? =
      some ((m._data.rows.getD r []).set c (normalizeEdit t)) := by
    rw [List.getElem?_set]
    simp [hr']
  have h2 : ((m._data.rows.getD r []).set c (normalizeEdit t))[c]? =
      some (normalizeEdit t) := by
    rw [List.getElem?_set]
    have hclen : c < (m._data.rows.getD r []).length := by rw [hrow, hrlen]; exact hc'
    rw [if_pos rfl, if_pos hclen]
  simp only [h1, Option.some_bind, h2, Option.map_some]
  unfold normalizeEdit displayCell
  by_cases hn : isNullEditText t
  · simp [hn]
  · have ht : t ≠ "" := by
      intro h
      subst h
      exact hn (by decide)
    simp [hn, ht]

/-- Claim C2 witness: on the 1×1 store, writing " null " reads back as NULL,
and writing "x " reads back verbatim. -/
theorem claim_C2_witness :
    (((CSVTableModel.mk ⟨["a"], [[some "q"]]⟩ ∅).setData 0 0 " null " true).1.data 0 0 =
        some "NULL") ∧
    (((CSVTableModel.mk ⟨["a"], [[some "q"]]⟩ ∅).setData 0 0 "x " true).1.data 0 0 =
        some "x ") := by
  constructor
  · have h := (claim_C2 (CSVTableModel.mk ⟨["a"], [[some "q"]]⟩ ∅) 0 0 " null "
      (by decide) (by decide) (by decide)).2
    rwa [show isNullEditText " null " = true by decide, if_pos rfl] at h
  · have h := (claim_C2 (CSVTableModel.mk ⟨["a"], [[some "q"]]⟩ ∅) 0 0 "x "
      (by decide) (by decide) (by decide)).2
    rwa [show isNullEditText "x " = false by decide, if_neg (by simp)] at h

/-- Claim C8: whenever one of the four store mutations reports failure
(returns False), the store it hands back is exactly the store it was given —
no partial structural mutation is observable. -/
theorem claim_C8 (m : CSVTableModel) (op : EditOp)
    (h : (applyOp m op).2 = false) : (applyOp m op).1 = m := by
  cases op with
  | setCell r c v =>
    simp only [applyOp] at h ⊢
    unfold CSVTableModel.setData at h ⊢
    rw [if_pos rfl] at h ⊢
    by_cases hb : r < m._data.rows.length ∧ c < m._data.columns.length
    · rw [if_pos hb] at h
      simp at h
    · rw [if_neg hb]
  | insertRowAfter i =>
    simp only [applyOp] at h
    unfold CSVTableModel.add_row at h
    simp at h
  | deleteRow i =>
    simp only [applyOp] at h ⊢
    unfold CSVTableModel.remove_row at h ⊢
    by_cases hb : 0 ≤ i ∧ i < (m._data.rows.length : Int)
    · rw [if_pos hb] at h
      simp at h
    · rw [if_neg hb]
  | deleteColumn i =>
    simp only [applyOp] at h ⊢
    unfold CSVTableModel.remove_column at h ⊢
    by_cases hb : 0 ≤ i ∧ i < (m._data.columns.length : Int)
    · rw [if_pos hb] at h
      simp at h
    · rw [if_neg hb]

/-- Claim C8 witness: deleting row 5 of the two-row demo store fails and
leaves the store untouched. -/
theorem claim_C8_witness : (applyOp demoModel (EditOp.deleteRow 5)).1 = demoModel :=
  claim_C8 demoModel (EditOp.deleteRow 5) (by decide)

/-- Claim C9: in the materialized save path a cell is serialized as the NULL
(empty) field exactly when the item is absent or its text is the
case-sensitive, untrimmed string "NULL"; the texts "null" and " NULL " are
kept verbatim even though the edit-time rule (`isNullEditText`) classifies
both as null — so the save-time rule genuinely differs from the edit-time
rule, and a textual "NULL" is saved as an empty field. -/
theorem claim_C9 :
    (∀ it : Option String,
        get_table_data_cell it = none ↔ it = none ∨ it = some "NULL") ∧
    get_table_data_cell (some "null") = some "null" ∧
    get_table_data_cell (some " NULL ") = some " NULL " ∧
    get_table_data_cell (some "NULL") = none ∧
    isNullEditText "null" = true ∧ isNullEditText " NULL " = true := by
  refine ⟨?_, by decide, by decide, by decide, by decide, by decide⟩
  intro it
  cases it with
  | none => simp [get_table_data_cell]
  | some t =>
    unfold get_table_data_cell
    by_cases h : t = "NULL" <;> simp [h]

/-- Claim C6: deleting a valid row succeeds, drops exactly that row, keeps
every earlier row at its index, shifts every later row down by one, and
decreases the row count by one.  Columns and all other rows' contents are
untouched. -/
theorem claim_C6 (m : CSVTableModel) (r : Nat) (h : r < m.rowCount) :
    (m.remove_row r).2 = true ∧
    (m.remove_row r).1.rowCount = m.rowCount - 1 ∧
    (m.remove_row r).1._data.columns = m._data.columns ∧
    (∀ j, j < r → (m.remove_row r).1._data.rows[j]? = m._data.rows[j]?) ∧
    (∀ j, r ≤ j → (m.remove_row r).1._data.rows[j]? = m._data.rows[j + 1]?) := by
  have h' : r < m._data.rows.length := h
  have hcond : 0 ≤ (r : Int) ∧ (r : Int) < (m._data.rows.length : Int) := by
    constructor
    · exact Int.ofNat_nonneg r
    · exact_mod_cast h'
  have hres : m.remove_row r =
      (⟨⟨m._data.columns, m._data.rows.eraseIdx r⟩, m._modified_cells⟩, true) := by
    unfold CSVTableModel.remove_row
    rw [if_pos hcond]
    simp
  rw [hres]
  refine ⟨rfl, ?_, rfl, ?_, ?_⟩
  · show (m._data.rows.eraseIdx r).length = m._data.rows.length - 1
    rw [List.length_eraseIdx]
    simp [h']
  · intro j hj
    show (m._data.rows.eraseIdx r)[j]? = m._data.rows[j]?
    rw [List.eraseIdx_eq_take_drop_succ, List.getElem?_append]
    have hlt : j < (List.take r m._data.rows).length := by
      rw [List.length_take]
      exact lt_min hj (lt_of_lt_of_le hj (le_of_lt h'))
    rw [if_pos hlt, List.getElem?_take]
    rw [if_pos hj]
  · intro j hj
    show (m._data.rows.eraseIdx r)[j]? = m._data.rows[j + 1]?
    rw [List.eraseIdx_eq_take_drop_succ, List.getElem?_append]
    have htl : (List.take r m._data.rows).length = r := by
      rw [List.length_take]
      exact min_eq_left (le_of_lt h')
    have hnlt : ¬ j < (List.take r m._data.rows).length := by
      rw [htl]
      omega
    rw [if_neg hnlt, List.getElem?_drop, htl]
    congr 1
    omega

/-- Claim C6 witness: deleting row 0 of the demo store shifts row 1 into
position 0 and leaves one row. -/
theorem claim_C6_witness :
    (demoModel.remove_row 0).2 = true ∧
    (demoModel.remove_row 0).1._data.rows[0]? = demoModel._data.rows[1]? ∧
    (demoModel.remove_row 0).1.rowCount = 1 := by
  have h := claim_C6 demoModel 0 (by decide)
  exact ⟨h.1, h.2.2.2.2 0 (by decide), h.2.1⟩

/-- Erasing the element sitting right after a prefix `A` removes exactly that
element. -/
theorem eraseIdx_append_cons {α : Type} (A : List α) (x : α) (B : List α) :
    (A ++ x :: B).eraseIdx A.length = A ++ B := by
  induction A with
  | nil => rfl
  | cons a t ih => simp [List.eraseIdx, ih]

/-- Claim C7: for a valid index `i`, `add_row i` succeeds, inserts an
all-NULL row at position `i + 1`, grows the row count by one and marks
nothing modified; immediately deleting row `i + 1` returns the original
store exactly. -/
theorem claim_C7 (m : CSVTableModel) (i : Nat) (h : i < m.rowCount) :
    (m.add_row i).2 = true ∧
    (m.add_row i).1.rowCount = m.rowCount + 1 ∧
    (m.add_row i).1._data.rows[i + 1]? =
      some (List.replicate m.columnCount none) ∧
    (m.add_row i).1._modified_cells = m._modified_cells ∧
    (m.add_row i).1.remove_row ((i : Int) + 1) = (m, true) := by
  have h' : i < m._data.rows.length := h
  have htake : pySliceTake m._data.rows ((i : Int) + 1) = m._data.rows.take (i + 1) := by
    unfold pySliceTake
    rw [if_neg (by omega)]
    congr 1
  have hdrop : pySliceDrop m._data.rows ((i : Int) + 1) = m._data.rows.drop (i + 1) := by
    unfold pySliceDrop
    rw [if_neg (by omega)]
    congr 1
  set A := m._data.rows.take (i + 1) with hA
  set B := m._data.rows.drop (i + 1) with hB
  set N : List (Option String) := List.replicate m._data.columns.length none with hN
  have hadd : m.add_row i = (⟨⟨m._data.columns, A ++ N :: B⟩, m._modified_cells⟩, true) := by
    unfold CSVTableModel.add_row
    rw [htake, hdrop]
  rw [hadd]
  have htl : A.length = i + 1 := by
    rw [hA, List.length_take]
    exact min_eq_left (by omega)
  have hlen : (A ++ N :: B).length = m._data.rows.length + 1 := by
    rw [List.length_append, htl, hB]
    simp
    omega
  refine ⟨rfl, ?_, ?_, rfl, ?_⟩
  · exact hlen
  · have hnlt : ¬ (i + 1 < A.length) := by
      rw [htl]
      omega
    rw [List.getElem?_append, if_neg hnlt, htl]
    simp only [Nat.sub_self]
    rw [List.getElem?_cons_zero, hN]
    rfl
  · have hcond : 0 ≤ (i : Int) + 1 ∧ (i : Int) + 1 < ((A ++ N :: B).length : Int) := by
      constructor
      · omega
      · rw [hlen]
        push_cast
        omega
    unfold CSVTableModel.remove_row
    rw [if_pos hcond]
    have hnat : ((i : Int) + 1).toNat = i + 1 := by omega
    rw [hnat, ← htl, eraseIdx_append_cons, hA, hB, List.take_append_drop]

/-- Claim C7 witness: inserting after row 0 of the demo store puts an
all-NULL row at position 1, and deleting row 1 restores the store. -/
theorem claim_C7_witness :
    (demoModel.add_row 0).1._data.rows[1]? = some [none, none] ∧
    (demoModel.add_row 0).1.remove_row 1 = (demoModel, true) := by
  have h := claim_C7 demoModel 0 (by decide)
  exact ⟨h.2.2.1, h.2.2.2.2⟩

/-- For a duplicate-free column list, pandas' drop-by-label of the label at
position `k` keeps exactly the other positions. -/
theorem filter_ne_getElem_eq_eraseIdx (cols : List String) (k : Nat)
    (hk : k < cols.length) (hnd : cols.Nodup) :
    cols.filter (fun n => decide (n ≠ cols[k])) = cols.eraseIdx k := by
  induction cols generalizing k with
  | nil => simp at hk
  | cons c t ih =>
    have hct := List.nodup_cons.mp hnd
    cases k with
    | zero =>
      simp only [List.getElem_cons_zero, List.eraseIdx]
      rw [List.filter_cons_of_neg (by simp)]
      rw [List.filter_eq_self]
      intro x hx
      have : x ≠ c := by
        intro he
        exact hct.1 (he ▸ hx)
      simp [this]
    | succ k =>
      have hk' : k < t.length := by simpa using hk
      simp only [List.getElem_cons_succ, List.eraseIdx]
      rw [List.filter_cons_of_pos]
      · rw [ih k hk' hct.2]
      · have : c ≠ t[k] := by
          intro he
          exact hct.1 (he ▸ List.getElem_mem hk')
        simp [this]

/-- For a row matching a duplicate-free column list, dropping the cells
under the label at position `k` is erasure at position `k`. -/
theorem dropRowCellsByName_eq_eraseIdx (row : List (Option String))
    (cols : List String) (k : Nat) (hk : k < cols.length)
    (hlen : row.length = cols.length) (hnd : cols.Nodup) :
    dropRowCellsByName cols (cols[k]) row = row.eraseIdx k := by
  induction cols generalizing row k with
  | nil => simp at hk
  | cons c t ih =>
    have hct := List.nodup_cons.mp hnd
    cases row with
    | nil => simp at hlen
    | cons r rt =>
      have hlen' : rt.length = t.length := by simpa using hlen
      cases k with
      | zero =>
        simp only [List.getElem_cons_zero, List.eraseIdx]
        unfold dropRowCellsByName
        rw [List.zip_cons_cons, List.filter_cons_of_neg (by simp)]
        rw [List.filter_eq_self.mpr, List.map_fst_zip _ _ (le_of_eq hlen')]
        intro p hp
        obtain ⟨a, b⟩ := p
        have hb : b ∈ t := (List.of_mem_zip hp).2
        have : b ≠ c := fun he => hct.1 (he ▸ hb)
        simp [this]
      | succ k =>
        have hk' : k < t.length := by simpa using hk
        simp only [List.getElem_cons_succ, List.eraseIdx]
        unfold dropRowCellsByName
        rw [List.zip_cons_cons, List.filter_cons_of_pos]
        · rw [List.map_cons]
          have := ih rt k hk' hlen' hct.2
          unfold dropRowCellsByName at this
          rw [this]
        · have : c ≠ t[k] := by
            intro he
            exact hct.1 (he ▸ List.getElem_mem hk')
          simp [this]

/-- Claim C4 (amended): with an out-of-bounds index, `remove_column` raises
nothing — it returns False and hands the store back unchanged; with a valid
index (under the store invariants: unique column names, rectangular rows),
it returns True, removes exactly that column name, and removes exactly the
corresponding cell from every row, leaving all other columns' values in
every row unchanged. -/
theorem claim_C4 (m : CSVTableModel) (i : Int)
    (hnd : m._data.columns.Nodup) (hwf : wfModel m) :
    (¬ (0 ≤ i ∧ i < (m.columnCount : Int)) → m.remove_column i = (m, false)) ∧
    ((0 ≤ i ∧ i < (m.columnCount : Int)) →
      (m.remove_column i).2 = true ∧
      (m.remove_column i).1._data.columns = m._data.columns.eraseIdx i.toNat ∧
      (m.remove_column i).1._data.rows =
        m._data.rows.map (fun row => row.eraseIdx i.toNat) ∧
      (m.remove_column i).1._modified_cells = m._modified_cells) := by
  constructor
  · intro hno
    unfold CSVTableModel.columnCount at hno
    unfold CSVTableModel.remove_column
    rw [if_neg hno]
  · intro hyes
    unfold CSVTableModel.columnCount at hyes
    have hk : i.toNat < m._data.columns.length := by
      have := hyes.2
      omega
    have hgd : m._data.columns.getD i.toNat "" = m._data.columns.get ⟨i.toNat, hk⟩ :=
      List.getD_eq_getElem _ _ hk
    unfold CSVTableModel.remove_column
    rw [if_pos hyes]
    refine ⟨rfl, ?_, ?_, rfl⟩
    · show m._data.columns.filter _ = _
      rw [hgd]
      exact filter_ne_getElem_eq_eraseIdx _ _ hk hnd
    · show m._data.rows.map _ = _
      apply List.map_congr_left
      intro row hrow
      rw [hgd]
      exact dropRowCellsByName_eq_eraseIdx row _ _ hk (hwf row hrow) hnd

/-- Claim C4 counterexample: on the two-column demo store, the out-of-bounds
call `remove_column 5` does not fail with IndexError — it returns normally
with False and the store unchanged — whereas the operation the spec
describes yields an IndexError there. -/
theorem claim_C4_cex :
    demoModel.remove_column 5 = (demoModel, false) ∧
    deleteColumnSpec demoModel 5 = Except.error "IndexError" := by
  constructor
  · decide
  · rfl

/-- Claim C4 witness: deleting column 0 of the demo store leaves columns
`["name"]` and each row with only its "name" cell, as in the spec's
scenario. -/
theorem claim_C4_witness :
    (demoModel.remove_column 0).2 = true ∧
    (demoModel.remove_column 0).1._data.columns = ["name"] ∧
    (demoModel.remove_column 0).1._data.rows = [[some "Alice"], [none]] := by
  have h := (claim_C4 demoModel 0 (by decide) (by decide)).2 ⟨by decide, by decide⟩
  exact ⟨h.1, h.2.1.trans (by decide), h.2.2.1.trans (by decide)⟩

/-- Removing position `d` and then filtering away a set of indices below `d`
is the same as filtering away `{d} ∪ ds` from the original list (indices read
off the original enumeration). -/
theorem eraseIdx_enum_filter_map {α : Type} (l : List α) (d : Nat) (ds : List Nat)
    (hd : d < l.length) (hds : ∀ e ∈ ds, e < d) :
    ((l.eraseIdx d).enum.filter (fun p => decide (p.1 ∉ ds))).map Prod.snd
      = (l.enum.filter (fun p => decide (p.1 ∉ d :: ds))).map Prod.snd := by
  have hlt : (l.take d).length = d := by
    rw [List.length_take]
    exact min_eq_left (le_of_lt hd)
  have hL : (l.eraseIdx d).enum =
      List.enumFrom 0 (l.take d) ++ List.enumFrom d (l.drop (d + 1)) := by
    rw [List.eraseIdx_eq_take_drop_succ, List.enum_eq_enumFrom,
      List.enumFrom_append, hlt, Nat.zero_add]
  have hR : l.enum = List.enumFrom 0 (l.take d) ++
      ((d, l.get ⟨d, hd⟩) :: List.enumFrom (d + 1) (l.drop (d + 1))) := by
    conv_lhs => rw [show l = l.take d ++ l.drop d from (List.take_append_drop d l).symm]
    rw [List.enum_eq_enumFrom, List.enumFrom_append, hlt,
      List.drop_eq_getElem_cons hd, Nat.zero_add]
    rfl
  rw [hL, hR, List.filter_append, List.filter_append, List.map_append, List.map_append]
  congr 1
  · apply congrArg (List.map Prod.snd)
    apply List.filter_congr
    intro p hpmem
    obtain ⟨i, x⟩ := p
    have h3 := List.mem_enumFrom hpmem
    have hi : i < d := by
      have h4 : i < 0 + (l.take d).length := h3.2.1
      rw [hlt] at h4
      omega
    have hne : i ≠ d := Nat.ne_of_lt hi
    rw [decide_eq_decide]
    simp only [List.mem_cons, not_or]
    constructor
    · intro hnot
      exact ⟨hne, hnot⟩
    · intro hpair
      exact hpair.2
  · have hLall : ∀ p ∈ List.enumFrom d (l.drop (d + 1)),
        (decide (p.1 ∉ ds)) = true := by
      intro p hpm
      obtain ⟨i, x⟩ := p
      have h3 := List.mem_enumFrom hpm
      rw [decide_eq_true_iff]
      intro hmem
      have := hds i hmem
      have hge : d ≤ i := h3.1
      omega
    have hRall : ∀ p ∈ List.enumFrom (d + 1) (l.drop (d + 1)),
        (decide (p.1 ∉ d :: ds)) = true := by
      intro p hpm
      obtain ⟨i, x⟩ := p
      have h3 := List.mem_enumFrom hpm
      have hge : d + 1 ≤ i := h3.1
      rw [decide_eq_true_iff]
      simp only [List.mem_cons, not_or]
      constructor
      · omega
      · intro hmem
        have := hds i hmem
        omega
    rw [List.filter_eq_self.mpr hLall, List.filter_cons_of_neg (by simp),
      List.filter_eq_self.mpr hRall, List.enumFrom_map_snd, List.enumFrom_map_snd]

/-- Folding `eraseIdx` over a strictly descending list of valid indices
removes exactly those positions of the original list. -/
theorem foldl_eraseIdx_eq_filter {α : Type} (ds : List Nat) (l : List α)
    (hp : ds.Pairwise (· > ·)) (hv : ∀ d ∈ ds, d < l.length) :
    ds.foldl (fun acc i => acc.eraseIdx i) l
      = (l.enum.filter (fun p => decide (p.1 ∉ ds))).map Prod.snd := by
  induction ds generalizing l with
  | nil =>
    have hall : ∀ p ∈ l.enum, (decide (p.1 ∉ ([] : List Nat))) = true := by
      intro p _
      simp
    rw [List.foldl_nil, List.filter_eq_self.mpr hall, List.enum_map_snd]
  | cons d ds ih =>
    have hd : d < l.length := hv d (List.mem_cons_self d ds)
    have hds : ∀ e ∈ ds, e < d := (List.pairwise_cons.mp hp).1
    rw [List.foldl_cons]
    rw [ih (l.eraseIdx d) (List.pairwise_cons.mp hp).2 ?hv2]
    · exact eraseIdx_enum_filter_map l d ds hd hds
    case hv2 =>
      intro e he
      rw [List.length_eraseIdx, if_pos hd]
      have h1 := hds e he
      omega

/-- Claim C10: deleting a selection of valid row indices (deduplicated,
removed in descending order, as `delete_selected_rows` does) removes exactly
the rows at those original indices: the survivors are the unselected rows in
their original relative order. -/
theorem claim_C10 (rows : List (List String)) (sel : List Nat)
    (hv : ∀ i ∈ sel, i < rows.length) :
    delete_selected_rows rows sel
      = (rows.enum.filter (fun p => decide (p.1 ∉ sel))).map Prod.snd := by
  unfold delete_selected_rows
  have hperm : (List.insertionSort (· ≥ ·) sel.dedup).Perm sel.dedup :=
    List.perm_insertionSort _ _
  have hmem : ∀ x : Nat, x ∈ List.insertionSort (· ≥ ·) sel.dedup ↔ x ∈ sel := by
    intro x
    rw [hperm.mem_iff, List.mem_dedup]
  have hsorted : List.Sorted (· ≥ ·) (List.insertionSort (· ≥ ·) sel.dedup) :=
    List.sorted_insertionSort _ _
  have hnd : (List.insertionSort (· ≥ ·) sel.dedup).Nodup :=
    hperm.nodup_iff.mpr (List.nodup_dedup _)
  have hgt : (List.insertionSort (· ≥ ·) sel.dedup).Pairwise (· > ·) :=
    (List.Pairwise.and hsorted hnd).imp
      (fun h => lt_of_le_of_ne h.1 (Ne.symm h.2))
  rw [foldl_eraseIdx_eq_filter _ rows hgt (fun d hd => hv d ((hmem d).mp hd))]
  apply congrArg (List.map Prod.snd)
  apply List.filter_congr
  intro p _
  rw [decide_eq_decide]
  exact not_congr (hmem p.1)

/-- Claim C10 witness: selecting rows 0 and 2 of a three-row table (in any
listed order, with a duplicate) deletes exactly those rows, leaving row 1. -/
theorem claim_C10_witness :
    delete_selected_rows [["a"], ["b"], ["c"]] [0, 2, 0] = [["b"]] := by
  have h := claim_C10 [["a"], ["b"], ["c"]] [0, 2, 0] (by decide)
  rw [h]
  decide

/-- `search_data` in closed form: reset everything, and additionally run the
match pass when the stripped, lowercased query is non-empty. -/
theorem search_data_eq (st : List SRow) (input : String) :
    search_data st input =
      if queryOf input = "" then st.map resetRow
      else st.map (fun r => searchRow (queryOf input) (resetRow r)) := by
  simp only [search_data]
  by_cases hq : queryOf input = ""
  · rw [if_pos hq, if_pos hq]
  · rw [if_neg hq, if_neg hq, List.map_map]
    rfl

/-- Resetting backgrounds keeps every cell's text. -/
theorem resetRow_texts (r : SRow) :
    (resetRow r).cells.map SCell.text = r.cells.map SCell.text := by
  unfold resetRow
  rw [List.map_map]
  rfl

/-- The highlight pass keeps every cell's text. -/
theorem searchRow_texts (q : String) (r : SRow) :
    (searchRow q r).cells.map SCell.text = r.cells.map SCell.text := by
  unfold searchRow
  rw [List.map_map]
  apply List.map_congr_left
  intro c _
  show (if containsSub (pyLower c.text).toList q.toList = true then
      ({ text := c.text, highlighted := true } : SCell) else c).text = c.text
  split <;> rfl

/-- Row matching only looks at texts, which resetting preserves. -/
theorem rowHasMatch_resetRow (q : String) (r : SRow) :
    rowHasMatch q (resetRow r) = rowHasMatch q r := by
  unfold rowHasMatch resetRow
  rw [List.any_map]
  rfl

/-- The highlight pass hides a row exactly when no cell matches. -/
theorem searchRow_hidden (q : String) (r : SRow) :
    (searchRow q r).hidden = !(rowHasMatch q r) := rfl

/-- A search pass never changes any row's texts. -/
theorem search_data_rowTexts (st : List SRow) (input : String) :
    rowTexts (search_data st input) = rowTexts st := by
  rw [search_data_eq]
  unfold rowTexts
  by_cases hq : queryOf input = ""
  · rw [if_pos hq, List.map_map]
    apply List.map_congr_left
    intro r _
    exact resetRow_texts r
  · rw [if_neg hq, List.map_map]
    apply List.map_congr_left
    intro r _
    show (searchRow (queryOf input) (resetRow r)).cells.map SCell.text = _
    rw [searchRow_texts, resetRow_texts]

/-- Claim C5 (amended): after any `search_data` call, a row is visible iff
the stripped query is empty or some cell of the original row
case-insensitively contains it, and texts are never changed; clearing the
search text afterwards unhides every row of the *current* table, so the
visible texts equal the current row texts in order (which equal the
load-time rows only when no structural edit intervened since the load). -/
theorem claim_C5 (st : List SRow) (input : String) (i : Nat) (r₀ r₁ : SRow)
    (h₀ : st[i]? = some r₀) (h₁ : (search_data st input)[i]? = some r₁) :
    (r₁.hidden = false ↔
      (queryOf input = "" ∨ rowHasMatch (queryOf input) r₀ = true)) ∧
    r₁.cells.map SCell.text = r₀.cells.map SCell.text ∧
    rowTexts (search_data st input) = rowTexts st ∧
    (∀ r ∈ search_data (search_data st input) "", r.hidden = false) ∧
    visibleTexts (search_data (search_data st input) "") = rowTexts st := by
  have hsd := search_data_eq st input
  have hclear : search_data (search_data st input) "" =
      (search_data st input).map resetRow := by
    rw [search_data_eq (search_data st input) "", if_pos (by decide)]
  have hall : ∀ r ∈ search_data (search_data st input) "", r.hidden = false := by
    rw [hclear]
    intro r hr
    obtain ⟨r', _, hr'⟩ := List.mem_map.mp hr
    rw [← hr']
    rfl
  have hvis : visibleTexts (search_data (search_data st input) "") = rowTexts st := by
    unfold visibleTexts
    rw [List.filter_eq_self.mpr ?hf]
    case hf =>
      intro r hr
      rw [hall r hr]
      rfl
    rw [show search_data (search_data st input) "" =
        search_data (search_data st input) "" from rfl]
    rw [search_data_rowTexts, search_data_rowTexts]
  have hr1 : r₁ = if queryOf input = "" then resetRow r₀
      else searchRow (queryOf input) (resetRow r₀) := by
    by_cases hq : queryOf input = ""
    · rw [if_pos hq]
      rw [hsd, if_pos hq, List.getElem?_map, h₀, Option.map_some'] at h₁
      exact (Option.some.inj h₁).symm
    · rw [if_neg hq]
      rw [hsd, if_neg hq, List.getElem?_map, h₀, Option.map_some'] at h₁
      exact (Option.some.inj h₁).symm
  refine ⟨?_, ?_, search_data_rowTexts st input, hall, hvis⟩
  · rw [hr1]
    by_cases hq : queryOf input = ""
    · simp [hq, resetRow]
    · rw [if_neg hq, searchRow_hidden, rowHasMatch_resetRow]
      cases hm : rowHasMatch (queryOf input) r₀ <;> simp [hq, hm]
  · rw [hr1]
    by_cases hq : queryOf input = ""
    · rw [if_pos hq, resetRow_texts]
    · rw [if_neg hq, searchRow_texts, resetRow_texts]

/-- Claim C5 witness: on the freshly loaded two-row table of the spec's
scenario, searching "ali" keeps row 0 ("Alice") visible with its texts
intact, and clearing the search restores both rows. -/
theorem claim_C5_witness :
    ((⟨[⟨"1", false⟩, ⟨"Alice", true⟩], false⟩ : SRow).hidden = false ↔
      (queryOf "ali" = "" ∨
        rowHasMatch (queryOf "ali") ⟨[⟨"1", false⟩, ⟨"Alice", false⟩], false⟩ = true)) ∧
    visibleTexts (search_data
        (search_data (loadState [["1", "Alice"], ["2", "NULL"]]) "ali") "") =
      rowTexts (loadState [["1", "Alice"], ["2", "NULL"]]) := by
  have h := claim_C5 (loadState [["1", "Alice"], ["2", "NULL"]]) "ali" 0
    ⟨[⟨"1", false⟩, ⟨"Alice", false⟩], false⟩
    ⟨[⟨"1", false⟩, ⟨"Alice", true⟩], false⟩
    (by decide) (by decide)
  exact ⟨h.1, h.2.2.2.2⟩

/-- Claim C5 counterexample: the claim promises that clearing the search
restores the row set present immediately after the last load; if a row was
deleted between the load and the search, clearing shows the current (post-
delete) rows, not the loaded ones. -/
theorem claim_C5_cex :
    visibleTexts (search_data
        (search_data ((loadState [["a"], ["b"]]).eraseIdx 0) "zzz") "") ≠
      rowTexts (loadState [["a"], ["b"]]) := by
  decide

/-- `loadTable` on a non-empty file, with lets unfolded. -/
theorem loadTable_cons (headers : List String) (dataRows : List (List String)) :
    loadTable (headers :: dataRows) =
      (headers, (dataRows.filter (fun r => decide (r ≠ [""]))).map
        (fun r => (List.range headers.length).map (fun j =>
          renderField
            (inferKind ((dataRows.filter (fun rr => decide (rr ≠ [""]))).map
              (fun rr => rr.getD j "")))
            (r.getD j "")))) := rfl

/-- Saving one cell: NULL display text becomes the empty field, anything
else is written verbatim. -/
theorem saveCellText_eq (t : String) :
    saveCellText t = if t = "NULL" then "" else t := by
  unfold saveCellText get_table_data_cell to_csv_field
  by_cases h : t = "NULL" <;> simp [h]

/-- Unpacking the `plainField` conjunction (the parts the round trip needs). -/
theorem plainField_spec (t : String) (h : plainField t = true) :
    t ∉ naTokens ∧ isIntToken t = false ∧ isBoolToken t = false := by
  unfold plainField at h
  simp only [Bool.and_eq_true, decide_eq_true_eq, Bool.not_eq_true'] at h
  exact ⟨h.1.1.1.1, h.1.1.1.2, h.1.2⟩

/-- Plain text is never the NULL display text ("NULL" is an NA token). -/
theorem plain_ne_null (t : String) (h : plainField t = true) : t ≠ "NULL" := by
  intro he
  have h1 := (plainField_spec t h).1
  rw [he] at h1
  exact h1 (by decide)

/-- Rebuilding a list from its indexed reads. -/
theorem map_range_getD {α : Type} (r : List α) (d : α) (g : Nat → α)
    (hg : ∀ j, j < r.length → g j = r.getD j d) :
    (List.range r.length).map g = r := by
  apply List.ext_getElem
  · simp
  · intro n h1 h2
    rw [List.getElem_map, List.getElem_range]
    rw [hg n (by simpa using h1)]
    exact List.getD_eq_getElem r d h2

/-- A column containing one plain text field is inferred as a text column. -/
theorem inferKind_strCol (fields : List String) (x : String) (hx : x ∈ fields)
    (hna : x ∉ naTokens) (hint : isIntToken x = false)
    (hbool : isBoolToken x = false) :
    inferKind fields = ColKind.strCol := by
  unfold inferKind
  have hxnon : x ∈ fields.filter (fun f => decide (f ∉ naTokens)) :=
    List.mem_filter.mpr ⟨hx, by simpa⟩
  rw [if_neg, if_neg]
  · intro hc
    rw [Bool.and_eq_true, List.all_eq_true] at hc
    rw [hc.2 x hxnon] at hbool
    exact Bool.true_eq_false ▸ hbool
  · intro hc
    rw [Bool.and_eq_true, List.all_eq_true] at hc
    rw [hc.2 x hxnon] at hint
    exact Bool.true_eq_false ▸ hint

/-- Claim C3 (amended): save-then-load is the identity on tables whose
column names are distinct plain text and whose cells are each either the
NULL display text or plain text — i.e. not one of the reader's NA tokens
(such as "NaN" or "null"), not integer-, float- or boolean-like in the
reader's whitespace-skipping, case-insensitive sense (which also rules out
" 1", "INF", "NAN", "tRuE" — fields the reader re-types and re-formats),
and free of delimiter/quote/newline characters — provided no row is a lone
all-NULL single-column row (whose blank line the reader skips).  Column
names, row order and cell values come back exactly; NULL cells go out as
empty fields and come back as NULL. -/
theorem claim_C3 (headers : List String) (rows : List (List String))
    (hlen : ∀ r ∈ rows, r.length = headers.length)
    (hne : headers ≠ [])
    (hhd : headers.Nodup)
    (hhp : ∀ h ∈ headers, plainField h = true)
    (hcells : ∀ r ∈ rows, ∀ c ∈ r, c = "NULL" ∨ plainField c = true)
    (hblank : ∀ r ∈ rows, r ≠ ["NULL"]) :
    roundTripTable headers rows = (headers, rows) := by
  unfold roundTripTable saveTable
  rw [loadTable_cons]
  have hfilter : (rows.map saveRowFields).filter (fun r => decide (r ≠ [""])) =
      rows.map saveRowFields := by
    rw [List.filter_eq_self]
    intro sr hsr
    obtain ⟨r, hr, hsr'⟩ := List.mem_map.mp hsr
    rw [decide_eq_true_iff]
    intro hbad
    rw [← hsr'] at hbad
    cases r with
    | nil => simp [saveRowFields] at hbad
    | cons x xs =>
      unfold saveRowFields at hbad
      rw [List.map_cons] at hbad
      have hx : saveCellText x = "" ∧ xs.map saveCellText = [] := by
        constructor
        · exact (List.cons.inj hbad).1
        · exact (List.cons.inj hbad).2
      have hxs : xs = [] := List.map_eq_nil.mp hx.2
      rcases hcells (x :: xs) hr x (List.mem_cons_self x xs) with hnull | hplain
      · rw [hxs, hnull] at hr
        exact hblank _ hr rfl
      · rw [saveCellText_eq, if_neg (plain_ne_null x hplain)] at hx
        rw [hx.1] at hplain
        exact absurd hplain (by decide)
  rw [hfilter]
  congr 1
  rw [List.map_map]
  have hrow : ∀ r ∈ rows,
      (List.range headers.length).map (fun j =>
        renderField
          (inferKind ((rows.map saveRowFields).map (fun rr => rr.getD j "")))
          ((saveRowFields r).getD j "")) = r := by
    intro r hr
    have hrl : r.length = headers.length := hlen r hr
    rw [← hrl]
    apply map_range_getD
    intro j hj
    have hj' : j < (r.map saveCellText).length := by simpa using hj
    have hsave : (saveRowFields r).getD j "" = saveCellText (r.getD j "") := by
      unfold saveRowFields
      rw [List.getD_eq_getElem _ _ hj', List.getElem_map, List.getD_eq_getElem r "" hj]
    rw [hsave]
    have hmem : r.getD j "" ∈ r := by
      rw [List.getD_eq_getElem r "" hj]
      exact List.getElem_mem hj
    rcases hcells r hr _ hmem with hnull | hplain
    · rw [hnull]
      rw [show saveCellText "NULL" = "" from by decide]
      unfold renderField
      rw [if_pos (by decide)]
    · obtain ⟨hna, hint, hbool⟩ := plainField_spec _ hplain
      have hnn : r.getD j "" ≠ "NULL" := plain_ne_null _ hplain
      have hsc : saveCellText (r.getD j "") = r.getD j "" := by
        rw [saveCellText_eq, if_neg hnn]
      rw [hsc]
      have hxmem : r.getD j "" ∈ (rows.map saveRowFields).map
          (fun rr => rr.getD j "") := by
        rw [List.map_map]
        apply List.mem_map.mpr
        exact ⟨r, hr, hsave.trans hsc⟩
      rw [inferKind_strCol _ _ hxmem hna hint hbool]
      unfold renderField
      rw [if_neg hna]
  calc (rows.map ((fun r => (List.range headers.length).map (fun j =>
          renderField
            (inferKind ((rows.map saveRowFields).map (fun rr => rr.getD j "")))
            (r.getD j ""))) ∘ saveRowFields))
      = rows.map id := List.map_congr_left (fun r hr => hrow r hr)
    _ = rows := List.map_id rows

/-- Claim C3 counterexample: a store whose single cell holds the text "NaN"
does not round trip — the reader treats the saved field "NaN" as an NA token
and hands back NULL, so the reloaded table differs from the saved one. -/
theorem claim_C3_cex :
    roundTripTable ["a"] [["NaN"]] ≠ (["a"], [["NaN"]]) := by
  decide

/-- Claim C3 witness: a table of plain text (and one NULL) round trips
exactly. -/
theorem claim_C3_witness :
    roundTripTable ["id", "name"] [["1x", "Alice"], ["NULL", "Bob"]] =
      (["id", "name"], [["1x", "Alice"], ["NULL", "Bob"]]) :=
  claim_C3 ["id", "name"] [["1x", "Alice"], ["NULL", "Bob"]]
    (by decide) (by decide) (by decide) (by decide) (by decide) (by decide)
